import Mathlib

/-!
Verification development for the unofficial-claude-api client.

The definitions below are a shallow embedding of the Python sources
`claude_api/client.py`, `claude2_api/client.py` and `claude_api/errors.py`.
Byte buffers are modelled at the text level (`String`), and external
decompression primitives (zlib gzip/inflate, Brotli) are passed in as
oracle functions `String → Option String`, where `none` models the
library call raising an exception.  Python `json.loads` is modelled by a
strict JSON parser over a `JVal` tree (the non-standard NaN/Infinity
extensions and float numerals are not modelled: a numeral is kept as its
raw lexeme, and `int(...)` conversion is defined on integer lexemes).
-/

namespace ClaudeApi

/-- JSON values as produced by Python `json.loads`.  Numbers keep their
raw lexeme; objects keep their field list in source order (Python dict
lookup resolves duplicate keys to the last occurrence). -/
inductive JVal where
  | null : JVal
  | bool (b : Bool) : JVal
  | num (lexeme : String) : JVal
  | str (s : String) : JVal
  | arr (elems : List JVal) : JVal
  | obj (fields : List (String × JVal)) : JVal

/-- JSON insignificant whitespace (RFC 8259, as accepted by `json.loads`). -/
def isJsonWs (c : Char) : Bool :=
  c == ' ' || c == '\t' || c == '\n' || c == '\r'

/-- Skip JSON whitespace. -/
def skipWs (cs : List Char) : List Char :=
  cs.dropWhile isJsonWs

/-- Span of leading decimal digits. -/
def spanDigits : List Char → List Char × List Char
  | [] => ([], [])
  | c :: cs =>
    if c.isDigit then
      let p := spanDigits cs
      (c :: p.1, p.2)
    else ([], c :: cs)

/-- Hex digit value, on raw code points: 0-9, a-f, A-F. -/
def hexVal (c : Char) : Option Nat :=
  let n := c.toNat
  if 48 ≤ n && n ≤ 57 then some (n - 48)
  else if 97 ≤ n && n ≤ 102 then some (n - 87)
  else if 65 ≤ n && n ≤ 70 then some (n - 55)
  else none

/-- JSON string body parsing, after the opening quote; handles the JSON
escapes (a `\uXXXX` escape denoting a surrogate is mapped to the Char
replacement behaviour of `Char.ofNat`; surrogate pairing is not
modelled, it is unreachable in this protocol).  Raw control characters
are rejected as in strict-mode `json.loads`. -/
def parseJStringAux : List Char → List Char → Option (String × List Char)
  | acc, '\"' :: rest => some (String.mk acc.reverse, rest)
  | acc, '\\' :: 'u' :: h1 :: h2 :: h3 :: h4 :: rest =>
    match hexVal h1, hexVal h2, hexVal h3, hexVal h4 with
    | some a, some b, some c, some d =>
      parseJStringAux (Char.ofNat (((a * 16 + b) * 16 + c) * 16 + d) :: acc) rest
    | _, _, _, _ => none
  | acc, '\\' :: e :: rest =>
    if e == '\"' then parseJStringAux ('\"' :: acc) rest
    else if e == '\\' then parseJStringAux ('\\' :: acc) rest
    else if e == '/' then parseJStringAux ('/' :: acc) rest
    else if e == 'b' then parseJStringAux ('\x08' :: acc) rest
    else if e == 'f' then parseJStringAux ('\x0c' :: acc) rest
    else if e == 'n' then parseJStringAux ('\n' :: acc) rest
    else if e == 'r' then parseJStringAux ('\r' :: acc) rest
    else if e == 't' then parseJStringAux ('\t' :: acc) rest
    else none
  | acc, c :: rest =>
    if c.toNat ≥ 0x20 then parseJStringAux (c :: acc) rest else none
  | _, [] => none

/-- Parse the integer part of a JSON number: `0` or a nonzero digit
followed by digits. -/
def parseIntPart : List Char → Option (List Char × List Char)
  | '0' :: rest => some (['0'], rest)
  | c :: rest =>
    if c.isDigit then
      let p := spanDigits rest
      some (c :: p.1, p.2)
    else none
  | [] => none

/-- Parse the optional fraction part `.digits`. -/
def parseFracPart : List Char → Option (List Char × List Char)
  | '.' :: rest =>
    match spanDigits rest with
    | ([], _) => none
    | (ds, rest') => some ('.' :: ds, rest')
  | cs => some ([], cs)

/-- Parse the optional exponent part `[eE][+-]?digits`. -/
def parseExpPart : List Char → Option (List Char × List Char)
  | c :: rest =>
    if c == 'e' || c == 'E' then
      match rest with
      | s :: rest' =>
        if s == '+' || s == '-' then
          match spanDigits rest' with
          | ([], _) => none
          | (ds, rest'') => some (c :: s :: ds, rest'')
        else
          match spanDigits rest with
          | ([], _) => none
          | (ds, rest'') => some (c :: ds, rest'')
      | [] => none
    else some ([], c :: rest)
  | [] => some ([], [])

/-- Parse a JSON number, returning its raw lexeme. -/
def parseNumber (cs : List Char) : Option (String × List Char) :=
  let signed : List Char × List Char :=
    match cs with
    | '-' :: rest => (['-'], rest)
    | _ => ([], cs)
  match parseIntPart signed.2 with
  | none => none
  | some (ip, rest1) =>
    match parseFracPart rest1 with
    | none => none
    | some (fp, rest2) =>
      match parseExpPart rest2 with
      | none => none
      | some (ep, rest3) =>
        some (String.mk (signed.1 ++ ip ++ fp ++ ep), rest3)

mutual

/-- Strict JSON value parsing with fuel (the fuel bounds nesting; the
top-level call supplies more fuel than the input length, so it never
runs out on inputs the Python parser accepts). -/
def parseValue : Nat → List Char → Option (JVal × List Char)
  | 0, _ => none
  | fuel + 1, cs =>
    match cs with
    | '\x7b' :: rest =>
      match skipWs rest with
      | '\x7d' :: rest' => some (.obj [], rest')
      | rest' =>
        match parseMembers fuel rest' with
        | some (fs, rest'') => some (.obj fs, rest'')
        | none => none
    | '[' :: rest =>
      match skipWs rest with
      | ']' :: rest' => some (.arr [], rest')
      | rest' =>
        match parseElems fuel rest' with
        | some (vs, rest'') => some (.arr vs, rest'')
        | none => none
    | '\"' :: rest =>
      match parseJStringAux [] rest with
      | some (s, rest') => some (.str s, rest')
      | none => none
    | 't' :: 'r' :: 'u' :: 'e' :: rest => some (.bool true, rest)
    | 'f' :: 'a' :: 'l' :: 's' :: 'e' :: rest => some (.bool false, rest)
    | 'n' :: 'u' :: 'l' :: 'l' :: rest => some (.null, rest)
    | c :: rest =>
      if c == '-' || c.isDigit then
        match parseNumber (c :: rest) with
        | some (lex, rest') => some (.num lex, rest')
        | none => none
      else none
    | [] => none

/-- Object members: `"key" : value (, "key" : value)* }`. -/
def parseMembers : Nat → List Char → Option (List (String × JVal) × List Char)
  | 0, _ => none
  | fuel + 1, cs =>
    match cs with
    | '\"' :: rest =>
      match parseJStringAux [] rest with
      | some (k, rest1) =>
        match skipWs rest1 with
        | ':' :: rest2 =>
          match parseValue fuel (skipWs rest2) with
          | some (v, rest3) =>
            match skipWs rest3 with
            | ',' :: rest4 =>
              match parseMembers fuel (skipWs rest4) with
              | some (fs, rest5) => some ((k, v) :: fs, rest5)
              | none => none
            | '\x7d' :: rest4 => some ([(k, v)], rest4)
            | _ => none
          | none => none
        | _ => none
      | none => none
    | _ => none

/-- Array elements: `value (, value)* ]`. -/
def parseElems : Nat → List Char → Option (List JVal × List Char)
  | 0, _ => none
  | fuel + 1, cs =>
    match parseValue fuel cs with
    | some (v, rest) =>
      match skipWs rest with
      | ',' :: rest' =>
        match parseElems fuel (skipWs rest') with
        | some (vs, rest'') => some (v :: vs, rest'')
        | none => none
      | ']' :: rest' => some ([v], rest')
      | _ => none
    | none => none

end

/-- Model of Python `json.loads`: parse one JSON value and require that
only whitespace remains; `none` models a raised `JSONDecodeError`. -/
def loads (s : String) : Option JVal :=
  match parseValue (s.length + 1) (skipWs s.toList) with
  | some (v, rest) => if (skipWs rest).isEmpty then some v else none
  | none => none

/-! ## Python dict / operator semantics used by the client code -/

/-- `d.keys()` membership on a field list (first component match). -/
def objHasKey (fs : List (String × JVal)) (k : String) : Bool :=
  fs.any (fun p => p.1 == k)

/-- Python dict lookup on a field list: the last binding of a duplicated
key wins, `none` when the key is absent. -/
def objGet (fs : List (String × JVal)) (k : String) : Option JVal :=
  (fs.reverse.find? (fun p => p.1 == k)).map (fun p => p.2)

/-- Does `needle` start the list `hay`? -/
def startsWithL : List Char → List Char → Bool
  | [], _ => true
  | _ :: _, [] => false
  | n :: ns, h :: hs => n == h && startsWithL ns hs

/-- Substring containment on character lists (Python `in` on `str`). -/
def containsSubL (needle : List Char) : List Char → Bool
  | [] => needle.isEmpty
  | h :: hs => startsWithL needle (h :: hs) || containsSubL needle hs

/-- Python `needle in v` for a string needle: key membership on dicts,
substring test on strings, equality membership on lists; `none` models
the `TypeError` raised on the remaining types. -/
def pyIn (needle : String) : JVal → Option Bool
  | .obj fs => some (objHasKey fs needle)
  | .str s => some (containsSubL needle.toList s.toList)
  | .arr xs => some (xs.any fun x =>
      match x with
      | .str s => s == needle
      | _ => false)
  | _ => none

/-- Python `v[k]` for a string key: dict lookup; `none` models the
`TypeError`/`KeyError` raised otherwise. -/
def pySubscript : JVal → String → Option JVal
  | .obj fs, k => objGet fs k
  | _, _ => none

/-- Python `v.get(k, dflt)`: defined on dicts only; `none` models the
`AttributeError` raised on other receivers. -/
def pyGetDefault : JVal → String → JVal → Option JVal
  | .obj fs, k, dflt => some ((objGet fs k).getD dflt)
  | _, _, _ => none

/-- Decimal digits to a natural number (`none` when empty or non-digit). -/
def digitsToNat : List Char → Option Nat
  | [] => none
  | cs =>
    if cs.all Char.isDigit then
      some (cs.foldl (fun acc c => acc * 10 + (c.toNat - '0'.toNat)) 0)
    else none

/-- Integer value of a pure integer lexeme (optional sign, digits). -/
def intLexeme : List Char → Option Int
  | '-' :: ds => (digitsToNat ds).map (fun n => -(n : Int))
  | '+' :: ds => (digitsToNat ds).map (fun n => (n : Int))
  | ds => (digitsToNat ds).map (fun n => (n : Int))

/-- Python whitespace characters recognised by `str.strip` (the ASCII
set plus the common Unicode line/space separators; exotic Zs code
points do not occur in this protocol). -/
def isPySpace (c : Char) : Bool :=
  c == ' ' || c == '\t' || c == '\n' || c == '\r' || c == '\x0b' ||
  c == '\x0c' || c == '\x1c' || c == '\x1d' || c == '\x1e' ||
  c == '\x85' || c == '\xa0' || c == ' ' || c == ' '

/-- Model of Python `int(v)`: integers (and integral strings, booleans)
convert; other shapes — including float numerals, whose truncation is
not modelled — are `none`, modelling a raised error. -/
def pyInt : JVal → Option Int
  | .num lex => intLexeme lex.toList
  | .bool b => some (if b then 1 else 0)
  | .str s => intLexeme ((s.toList.dropWhile isPySpace).reverse.dropWhile isPySpace).reverse
  | _ => none

/-! ## The stream parser (`__parse_send_message_response`) -/

/-- Python `str.strip()` on a character list. -/
def pyStripL (cs : List Char) : List Char :=
  ((cs.dropWhile isPySpace).reverse.dropWhile isPySpace).reverse

/-- Python `str.strip()`. -/
def pyStrip (s : String) : String :=
  String.mk (pyStripL s.toList)

/-- `re.sub(r"\n+", "\n", s)`: collapse runs of newline characters; the
flag records whether the previous character was a newline. -/
def collapseNL : Bool → List Char → List Char
  | _, [] => []
  | prevNL, c :: rest =>
    if c == '\n' then
      if prevNL then collapseNL true rest
      else '\n' :: collapseNL true rest
    else c :: collapseNL false rest

/-- Line-boundary characters of Python `str.splitlines`. -/
def isLineBoundary (c : Char) : Bool :=
  c == '\n' || c == '\r' || c == '\x0b' || c == '\x0c' || c == '\x1c' ||
  c == '\x1d' || c == '\x1e' || c == '\x85' || c == ' ' || c == ' '

/-- Python `str.splitlines()`: every boundary terminates a line
(`\r\n` counting as one boundary); a final line is produced only when
nonempty. -/
def splitlinesAux : List Char → List Char → List (List Char)
  | cur, [] => if cur.isEmpty then [] else [cur.reverse]
  | cur, '\r' :: '\n' :: rest => cur.reverse :: splitlinesAux [] rest
  | cur, c :: rest =>
    if isLineBoundary c then cur.reverse :: splitlinesAux [] rest
    else splitlinesAux (c :: cur) rest

/-- `re.search(r"\x7b.*\x7d", line)` on a single line (which contains no
newline): the leftmost-greedy match runs from the first opening brace to
the last closing brace, provided the former precedes the latter. -/
def extractBrace (line : List Char) : Option String :=
  let a := line.dropWhile (fun c => c != '\x7b')
  let r := a.reverse.dropWhile (fun c => c != '\x7d')
  if r.isEmpty then none else some (String.mk r.reverse)

/-- The candidate JSON lines extracted from a decoded body: strip, collapse
newline runs, strip again, split into lines, and keep each line's
brace-delimited match. -/
def extractDataLines (body : String) : List String :=
  let res := pyStripL body.toList
  let res := pyStripL (collapseNL false res)
  (splitlinesAux [] res).filterMap extractBrace

/-- Outcome of `__parse_send_message_response`: its return value (a
string, or `None` when no data line was found), or the exception it
raises (`MessageRateLimitError`, `OverloadError`, `ClaudeAPIError`,
`json.JSONDecodeError`, or an unguarded runtime `TypeError` /
`AttributeError` / `ValueError`). -/
inductive ParseOutcome where
  | returned (answer : Option String) : ParseOutcome
  | rateLimit (resetsAt : Int) : ParseOutcome
  | overload (message : JVal) : ParseOutcome
  | apiError (errType message : JVal) : ParseOutcome
  | jsonDecodeError : ParseOutcome
  | pyError : ParseOutcome

/-- `"".join(completions)`: all elements must be strings. -/
def joinStrs : List JVal → Option String
  | [] => some ""
  | .str s :: rest => (joinStrs rest).map (fun t => s ++ t)
  | _ :: _ => none

/-- The per-line loop of `__parse_send_message_response`, carrying the
`completions` accumulator. -/
def processLines : List JVal → List String → ParseOutcome
  | completions, [] =>
    match joinStrs completions with
    | some s => .returned (some (pyStrip s))
    | none => .pyError
  | completions, line :: rest =>
    match loads line with
    | none => .jsonDecodeError
    | some data_dict =>
      match pyIn "error" data_dict with
      | none => .pyError
      | some true =>
        match pySubscript data_dict "error" with
        | none => .pyError
        | some errv =>
          match pyIn "resets_at" errv with
          | none => .pyError
          | some true =>
            match pySubscript errv "resets_at" with
            | none => .pyError
            | some rv =>
              match pyInt rv with
              | some t => .rateLimit t
              | none => .pyError
          | some false =>
            match pyGetDefault data_dict "error" (.obj []) with
            | none => .pyError
            | some error_d =>
              match pyGetDefault error_d "type" (.str ""),
                    pyGetDefault error_d "message" (.str "") with
              | some ty, some msg =>
                match pyIn "overloaded" ty with
                | none => .pyError
                | some true => .overload msg
                | some false => .apiError ty msg
              | _, _ => .pyError
      | some false =>
        match pyIn "completion" data_dict with
        | none => .pyError
        | some true =>
          match pySubscript data_dict "completion" with
          | none => .pyError
          | some v => processLines (completions ++ [v]) rest
        | some false => processLines completions rest

/-- `__parse_send_message_response` on an already-UTF-8-decoded body. -/
def parse_send_message_response (data_bytes : String) : ParseOutcome :=
  let data_lines := extractDataLines data_bytes
  if data_lines.isEmpty then .returned none
  else processLines [] data_lines

/-! ## Content decoding (`__decode_response`) -/

/-- `claude_api/client.py::__decode_response`.  The zlib calls are
oracles `gz` (gzip wrapper, `MAX_WBITS | 16`) and `infl` (raw inflate,
`-MAX_WBITS`); `none` models a decompression exception.  The Brotli
branch is commented out in this variant ("DROPPING BROTLI DECODING"),
so any label other than gzip/deflate — including "br" — passes the
buffer through unchanged. -/
def decode_response (gz infl : String → Option String)
    (buffer : String) (encoding_header : Option String) : Option String :=
  if encoding_header == some "gzip" then gz buffer
  else if encoding_header == some "deflate" then infl buffer
  else some buffer

/-- `claude2_api/client.py::__decode_response`: same dispatch, with the
Brotli branch (`brd` oracle) live. -/
def decode_response2 (gz infl brd : String → Option String)
    (buffer : String) (encoding_header : Option String) : Option String :=
  if encoding_header == some "gzip" then gz buffer
  else if encoding_header == some "deflate" then infl buffer
  else if encoding_header == some "br" then brd buffer
  else some buffer

/-! ## `send_message` -/

/-- The POST response seen by `send_message`: HTTP status, the
`Content-Encoding` header when present, and the raw body. -/
structure HttpResponse where
  status_code : Nat
  content_encoding : Option String
  content : String

/-- `SendMessageResponse` dataclass: answer (None on parse failure),
HTTP status code, and the raw undecoded body bytes. -/
structure SendMessageResponse where
  answer : Option String
  status_code : Nat
  raw_answer : String

/-- Outcome of a `send_message` call: either the returned
`SendMessageResponse`, or the exception that escapes it (the parser's
exceptions are not caught in `send_message`), or a local validation
error raised before any network activity. -/
inductive SendOutcome where
  | response (r : SendMessageResponse) : SendOutcome
  | raisedRateLimit (resetsAt : Int) : SendOutcome
  | raisedOverload (message : JVal) : SendOutcome
  | raisedApiError (errType message : JVal) : SendOutcome
  | raisedJsonError : SendOutcome
  | raisedPyError : SendOutcome
  | validationError (message : String) : SendOutcome

/-- The response-handling tail of `send_message` (claude_api variant):
read the `Content-Encoding` header, try to decode — on a decoding
exception return the raw response with `answer = None` — otherwise run
the stream parser, whose exceptions propagate. -/
def send_message_result (gz infl : String → Option String)
    (response : HttpResponse) : SendOutcome :=
  match decode_response gz infl response.content response.content_encoding with
  | none => .response ⟨none, response.status_code, response.content⟩
  | some dec =>
    match parse_send_message_response dec with
    | .returned a => .response ⟨a, response.status_code, response.content⟩
    | .rateLimit t => .raisedRateLimit t
    | .overload m => .raisedOverload m
    | .apiError ty m => .raisedApiError ty m
    | .jsonDecodeError => .raisedJsonError
    | .pyError => .raisedPyError

/-! ## Attachment validation (`__check_file_attachments_paths`) -/

/-- The slice of the local filesystem the validation consults. -/
structure FileSystem where
  pathExists : String → Bool
  isFile : String → Bool
  size : String → Nat

/-- The per-path loop: existence/regular-file check, then the 10 MB
size cap. -/
def check_paths_loop (fs : FileSystem) : List String → Except String Unit
  | [] => .ok ()
  | p :: rest =>
    if !fs.pathExists p || !fs.isFile p then
      .error ("Attachment file does not exists -> " ++ p)
    else if fs.size p > 10485760 then
      .error "Attachment file exceed file size limit"
    else check_paths_loop fs rest

/-- `__check_file_attachments_paths`: `None` or an empty list passes;
more than 5 paths is rejected before looking at the filesystem; then
each path is checked in order. -/
def check_file_attachments_paths (fs : FileSystem) :
    Option (List String) → Except String Unit
  | none => .ok ()
  | some [] => .ok ()
  | some ps =>
    if ps.length > 5 then .error "Cannot attach more than 5 files!"
    else check_paths_loop fs ps

/-- `send_message`: validate the attachment paths first; only when
validation passes is any network activity performed (attachment
preparation/upload and the completion POST are abstracted into the
`net` effect, which produces the POST response). -/
def send_message (fs : FileSystem) (attachment_paths : Option (List String))
    (gz infl : String → Option String) (net : Unit → HttpResponse) :
    SendOutcome :=
  match check_file_attachments_paths fs attachment_paths with
  | .error m => .validationError m
  | .ok _ => send_message_result gz infl (net ())

/-! ## Rate-limit error bookkeeping (`errors.py`) -/

/-- `MessageRateLimitError.sleep_sec`: `int(abs(time() - reset_timestamp)) + 1`,
with the clock modelled in whole seconds. -/
def sleep_sec (now reset_timestamp : Int) : Int :=
  |now - reset_timestamp| + 1

/-- Modelled from the spec: the derived seconds-to-wait value the spec
prescribes for a rate-limit result, `max(0, resetEpoch - now) + 1`. -/
def sleep_sec_spec (now reset_timestamp : Int) : Int :=
  max 0 (reset_timestamp - now) + 1

/-! ## Chat lifecycle operations -/

/-- The list comprehension of `get_all_chat_ids` on one element:
`"uuid" in chat` (Python `in` semantics, possibly a `TypeError`) and,
when it holds, `chat["uuid"]`. -/
def collect_uuids : List JVal → Option (List JVal)
  | [] => some []
  | c :: rest =>
    match pyIn "uuid" c with
    | none => none
    | some false => collect_uuids rest
    | some true =>
      match pySubscript c "uuid" with
      | none => none
      | some v => (collect_uuids rest).map (fun vs => v :: vs)

/-- `get_all_chat_ids` on an HTTP response whose body parsed to the
JSON array `j`: on status 200 run the comprehension (`none` models an
escaping `TypeError`); any other status yields an empty list. -/
def get_all_chat_ids (status : Nat) (j : List JVal) : Option (List JVal) :=
  if status == 200 then collect_uuids j else some []

/-- `delete_all_chats`: delete every listed chat (the comprehension
runs all deletions, threading the remote state `σ`), then `all` of the
boolean results. -/
def delete_all_chats {σ : Type} (del : String → σ → Bool × σ) :
    List String → σ → Bool × σ
  | [], s => (true, s)
  | c :: rest, s =>
    let r := del c s
    let r' := delete_all_chats del rest r.2
    (r.1 && r'.1, r'.2)

/-- Concatenation with no separator, as in `"".join`. -/
def joinL : List String → String
  | [] => ""
  | s :: rest => s ++ joinL rest

/-- View of a candidate-line list that carries only completion
fragments: every line parses to an object with no "error" key, and
every "completion" value present is a string; the result collects those
strings in arrival order. -/
def fragmentsOf : List String → Option (List String)
  | [] => some []
  | l :: ls =>
    match loads l with
    | some (.obj fs) =>
      if objHasKey fs "error" then none
      else
        match objGet fs "completion" with
        | some (.str s) => (fragmentsOf ls).map (fun t => s :: t)
        | some _ => none
        | none => fragmentsOf ls
    | _ => none

/-! ## Helper lemmas -/

theorem objGet_eq_none_iff (fs : List (String × JVal)) (k : String) :
    objGet fs k = none ↔ objHasKey fs k = false := by
  simp [objGet, objHasKey, List.find?_eq_none, List.any_eq_true]

theorem objHasKey_of_objGet_some {fs : List (String × JVal)} {k : String}
    {v : JVal} (h : objGet fs k = some v) : objHasKey fs k = true := by
  cases hk : objHasKey fs k with
  | false => rw [(objGet_eq_none_iff fs k).mpr hk] at h; cases h
  | true => rfl

theorem objGet_some_of_objHasKey {fs : List (String × JVal)} {k : String}
    (h : objHasKey fs k = true) : ∃ v, objGet fs k = some v := by
  cases hv : objGet fs k with
  | none => rw [objGet_eq_none_iff] at hv; simp [hv] at h
  | some v => exact ⟨v, rfl⟩

theorem processLines_cons_completion {l : String} {fs : List (String × JVal)}
    {v : JVal} (hl : loads l = some (.obj fs))
    (he : objHasKey fs "error" = false)
    (hc : objGet fs "completion" = some v)
    (acc : List JVal) (rest : List String) :
    processLines acc (l :: rest) = processLines (acc ++ [v]) rest := by
  have hk := objHasKey_of_objGet_some hc
  simp [processLines, hl, pyIn, he, hk, pySubscript, hc]

theorem processLines_cons_skip {l : String} {fs : List (String × JVal)}
    (hl : loads l = some (.obj fs))
    (he : objHasKey fs "error" = false)
    (hc : objGet fs "completion" = none)
    (acc : List JVal) (rest : List String) :
    processLines acc (l :: rest) = processLines acc rest := by
  have hk := (objGet_eq_none_iff fs "completion").mp hc
  simp [processLines, hl, pyIn, he, hk]

theorem processLines_cons_rateLimit {rl : String} {ob efs : List (String × JVal)}
    {rv : JVal} {t : Int} (hl : loads rl = some (.obj ob))
    (he : objGet ob "error" = some (.obj efs))
    (hr : objGet efs "resets_at" = some rv)
    (hi : pyInt rv = some t)
    (acc : List JVal) (rest : List String) :
    processLines acc (rl :: rest) = .rateLimit t := by
  have hk := objHasKey_of_objGet_some he
  have hk' := objHasKey_of_objGet_some hr
  simp [processLines, hl, pyIn, hk, pySubscript, he, hk', hr, hi]

theorem processLines_append_noerror (pre : List String)
    (hpre : ∀ l ∈ pre, ∃ fs, loads l = some (JVal.obj fs) ∧
      objHasKey fs "error" = false) :
    ∀ (acc : List JVal) (rest : List String),
      ∃ acc', processLines acc (pre ++ rest) = processLines acc' rest := by
  induction pre with
  | nil => exact fun acc rest => ⟨acc, rfl⟩
  | cons l pre' ih =>
    intro acc rest
    obtain ⟨fs, hl, he⟩ := hpre l (List.mem_cons_self l pre')
    have hpre' : ∀ l' ∈ pre', ∃ fs, loads l' = some (JVal.obj fs) ∧
        objHasKey fs "error" = false :=
      fun l' hm => hpre l' (List.mem_cons_of_mem l hm)
    cases hc : objGet fs "completion" with
    | none =>
      obtain ⟨acc', hacc⟩ := ih hpre' acc rest
      exact ⟨acc', by rw [List.cons_append, processLines_cons_skip hl he hc, hacc]⟩
    | some v =>
      obtain ⟨acc', hacc⟩ := ih hpre' (acc ++ [v]) rest
      exact ⟨acc', by rw [List.cons_append, processLines_cons_completion hl he hc, hacc]⟩

theorem processLines_ne_returned_none (ls : List String) :
    ∀ acc, processLines acc ls ≠ .returned none := by
  induction ls with
  | nil =>
    intro acc
    simp only [processLines]
    split <;> simp
  | cons l rest ih =>
    intro acc
    simp only [processLines]
    repeat' split
    all_goals first
      | exact ih _
      | simp

theorem joinStrs_append_str (acc : List JVal) (s : String) :
    joinStrs (acc ++ [JVal.str s]) = (joinStrs acc).map (fun t => t ++ s) := by
  induction acc with
  | nil => simp [joinStrs]
  | cons x acc' ih =>
    cases x <;> simp [joinStrs, ih, Option.map_map]
    exact congrArg (fun f => Option.map f (joinStrs acc'))
      (funext fun u => by simp [Function.comp, String.append_assoc])

theorem processLines_fragments (ls : List String) :
    ∀ (acc : List JVal) (accS : String) (frags : List String),
      joinStrs acc = some accS → fragmentsOf ls = some frags →
      processLines acc ls = .returned (some (pyStrip (accS ++ joinL frags))) := by
  induction ls with
  | nil =>
    intro acc accS frags hj hf
    simp only [fragmentsOf, Option.some.injEq] at hf
    subst hf
    simp [processLines, hj, joinL]
  | cons l ls' ih =>
    intro acc accS frags hj hf
    cases hl : loads l with
    | none => simp only [fragmentsOf, hl] at hf; cases hf
    | some d =>
      cases d with
      | obj fs =>
        by_cases he : objHasKey fs "error" = true
        · simp [fragmentsOf, hl, he] at hf
        · rw [Bool.not_eq_true] at he
          cases hc : objGet fs "completion" with
          | none =>
            simp only [fragmentsOf, hl, he, Bool.false_eq_true, if_false, hc] at hf
            rw [processLines_cons_skip hl he hc]
            exact ih acc accS frags hj hf
          | some v =>
            cases v with
            | str s =>
              simp only [fragmentsOf, hl, he, Bool.false_eq_true, if_false, hc] at hf
              cases hf' : fragmentsOf ls' with
              | none => rw [hf'] at hf; cases hf
              | some frags' =>
                rw [hf'] at hf
                simp only [Option.map_some', Option.some.injEq] at hf
                subst hf
                rw [processLines_cons_completion hl he hc]
                have hacc' : joinStrs (acc ++ [JVal.str s]) = some (accS ++ s) := by
                  rw [joinStrs_append_str, hj]; rfl
                rw [ih (acc ++ [JVal.str s]) (accS ++ s) frags' hacc' hf']
                simp [joinL, String.append_assoc]
            | null => simp [fragmentsOf, hl, he, hc] at hf
            | bool b => simp [fragmentsOf, hl, he, hc] at hf
            | num m => simp [fragmentsOf, hl, he, hc] at hf
            | arr xs => simp [fragmentsOf, hl, he, hc] at hf
            | obj fs' => simp [fragmentsOf, hl, he, hc] at hf
      | null => simp only [fragmentsOf, hl] at hf; cases hf
      | bool b => simp only [fragmentsOf, hl] at hf; cases hf
      | num m => simp only [fragmentsOf, hl] at hf; cases hf
      | str s => simp only [fragmentsOf, hl] at hf; cases hf
      | arr xs => simp only [fragmentsOf, hl] at hf; cases hf

/-! ## Claim C1 -/

/-- Claim C1 (corrected).  For every decoded body whose candidate lines
split as completion-only lines followed by a line whose object carries
`error.resets_at`, parsing yields the rate-limit outcome with that
epoch, never an Answer — provided no other error line precedes the
rate-limit line.  Error lines are handled in arrival order, so
rate-limit detection takes priority over overload/generic-error
detection only within a single error object or when the rate-limit
line comes first; an earlier overload/generic error line preempts a
later `resets_at` line (see the counterexample). -/
theorem c1_rate_limit_after_completions (body : String) (pre : List String)
    (rl : String) (rest : List String) (ob efs : List (String × JVal))
    (rv : JVal) (t : Int)
    (hsplit : extractDataLines body = pre ++ rl :: rest)
    (hpre : ∀ l ∈ pre, ∃ fs, loads l = some (JVal.obj fs) ∧
      objHasKey fs "error" = false)
    (hrl : loads rl = some (JVal.obj ob))
    (herr : objGet ob "error" = some (JVal.obj efs))
    (hra : objGet efs "resets_at" = some rv)
    (hint : pyInt rv = some t) :
    parse_send_message_response body = ParseOutcome.rateLimit t := by
  simp only [parse_send_message_response, hsplit]
  rw [if_neg (by cases pre <;> simp)]
  obtain ⟨acc', hp⟩ := processLines_append_noerror pre hpre [] (rl :: rest)
  rw [hp, processLines_cons_rateLimit hrl herr hra hint]

/-- Witness for C1: one completion fragment, then a rate-limit line. -/
theorem c1_rate_limit_after_completions_witness :
    parse_send_message_response
      "\x7b\"completion\":\"Hello\"\x7d\n\x7b\"error\":\x7b\"resets_at\":1700000000\x7d\x7d" =
      ParseOutcome.rateLimit 1700000000 :=
  c1_rate_limit_after_completions
    "\x7b\"completion\":\"Hello\"\x7d\n\x7b\"error\":\x7b\"resets_at\":1700000000\x7d\x7d"
    ["\x7b\"completion\":\"Hello\"\x7d"]
    "\x7b\"error\":\x7b\"resets_at\":1700000000\x7d\x7d" []
    [("error", JVal.obj [("resets_at", JVal.num "1700000000")])]
    [("resets_at", JVal.num "1700000000")] (JVal.num "1700000000") 1700000000
    (by decide)
    (by
      intro l hl
      rw [List.mem_singleton] at hl
      subst hl
      exact ⟨[("completion", JVal.str "Hello")], rfl, rfl⟩)
    rfl rfl rfl rfl

/-- Counterexample for C1: when an overload error line arrives before
the `resets_at` line, the code raises `OverloadError`, not the
rate-limit outcome — so rate-limit detection does not take priority over
overload detection for the whole stream regardless of order. -/
theorem c1_counterexample :
    parse_send_message_response
      "\x7b\"error\":\x7b\"type\":\"overloaded_error\",\"message\":\"m\"\x7d\x7d\n\x7b\"error\":\x7b\"resets_at\":1700000000\x7d\x7d" =
      ParseOutcome.overload (JVal.str "m") ∧
    parse_send_message_response
      "\x7b\"error\":\x7b\"type\":\"overloaded_error\",\"message\":\"m\"\x7d\x7d\n\x7b\"error\":\x7b\"resets_at\":1700000000\x7d\x7d" ≠
      ParseOutcome.rateLimit 1700000000 := by
  have h : parse_send_message_response
      "\x7b\"error\":\x7b\"type\":\"overloaded_error\",\"message\":\"m\"\x7d\x7d\n\x7b\"error\":\x7b\"resets_at\":1700000000\x7d\x7d" =
      ParseOutcome.overload (JVal.str "m") := by rfl
  exact ⟨h, by rw [h]; simp⟩

/-! ## Claim C2 -/

/-- Claim C2 (corrected).  A line with no brace-delimited candidate is
skipped, and the overall Malformed outcome (`answer = None`) occurs
exactly when no line of the body yields a brace-delimited candidate.
A candidate that is not valid JSON does not merely get skipped: it
aborts the parse with an uncaught JSON decode error (see the
counterexample), so "Malformed iff no line parses" fails in both
directions. -/
theorem c2_malformed_iff_no_candidates (body : String) :
    parse_send_message_response body = ParseOutcome.returned none ↔
      extractDataLines body = [] := by
  constructor
  · intro h
    by_cases he : (extractDataLines body).isEmpty = true
    · simpa using he
    · exfalso
      simp only [parse_send_message_response] at h
      rw [if_neg he] at h
      exact processLines_ne_returned_none _ _ h
  · intro h
    simp [parse_send_message_response, h]

/-- Witness for C2: a body with no braces at all is Malformed. -/
theorem c2_malformed_iff_no_candidates_witness :
    parse_send_message_response "no json here" = ParseOutcome.returned none :=
  (c2_malformed_iff_no_candidates "no json here").mpr (by decide)

/-- Counterexample for C2: a line whose brace-delimited candidate is not
valid JSON aborts the whole parse with a JSON decode error; it is
neither skipped (which would yield `Answer("x")` from the second line)
nor folded into the Malformed outcome. -/
theorem c2_counterexample :
    parse_send_message_response "\x7bbad\x7d\n\x7b\"completion\":\"x\"\x7d" =
      ParseOutcome.jsonDecodeError ∧
    parse_send_message_response "\x7bbad\x7d\n\x7b\"completion\":\"x\"\x7d" ≠
      ParseOutcome.returned (some "x") ∧
    parse_send_message_response "\x7bbad\x7d\n\x7b\"completion\":\"x\"\x7d" ≠
      ParseOutcome.returned none := by
  have h : parse_send_message_response "\x7bbad\x7d\n\x7b\"completion\":\"x\"\x7d" =
      ParseOutcome.jsonDecodeError := by rfl
  exact ⟨h, by rw [h]; simp, by rw [h]; simp⟩

/-! ## Claim C6 -/

/-- Claim C6 (confirmed).  For every decoded body whose candidate lines
all parse to objects carrying no error object — only completion
fragments — the result is the Answer whose text is the concatenation of
the fragments' string values in arrival order with no separator,
trimmed of surrounding whitespace. -/
theorem c6_completions_concat (body : String) (frags : List String)
    (hne : extractDataLines body ≠ [])
    (hf : fragmentsOf (extractDataLines body) = some frags) :
    parse_send_message_response body =
      ParseOutcome.returned (some (pyStrip (joinL frags))) := by
  simp only [parse_send_message_response]
  rw [if_neg (by simpa using hne)]
  exact processLines_fragments (extractDataLines body) [] "" frags rfl hf

/-- Witness for C6: the two-line stream of the spec's scenario yields
`Answer("Hello, world.")`. -/
theorem c6_completions_concat_witness :
    parse_send_message_response
      "\x7b\"completion\":\"Hello, \"\x7d\n\x7b\"completion\":\"world.\"\x7d" =
      ParseOutcome.returned (some "Hello, world.") :=
  c6_completions_concat
    "\x7b\"completion\":\"Hello, \"\x7d\n\x7b\"completion\":\"world.\"\x7d"
    ["Hello, ", "world."] (by decide) (by decide)

/-! ## Claim C3 -/

/-- Claim C3 (corrected).  `send_message` performs rate-limit detection
only through the stream parser on the successfully decoded body: the
outcome is the rate-limit signal exactly when decoding succeeds and the
parser classifies the decoded body as rate-limited.  When
content-decoding fails, `send_message` returns `answer = None` with the
status code and raw bytes — it performs no separate `resets_at` check on
the raw error body, even at HTTP status 429 (see the counterexample). -/
theorem c3_rate_limit_only_via_stream_parse (gz infl : String → Option String)
    (resp : HttpResponse) :
    (decode_response gz infl resp.content resp.content_encoding = none →
      send_message_result gz infl resp =
        SendOutcome.response ⟨none, resp.status_code, resp.content⟩) ∧
    (∀ t : Int,
      send_message_result gz infl resp = SendOutcome.raisedRateLimit t ↔
        ∃ dec, decode_response gz infl resp.content resp.content_encoding = some dec ∧
          parse_send_message_response dec = ParseOutcome.rateLimit t) := by
  constructor
  · intro h
    simp [send_message_result, h]
  · intro t
    constructor
    · intro h
      unfold send_message_result at h
      cases hd : decode_response gz infl resp.content resp.content_encoding with
      | none => rw [hd] at h; simp at h
      | some dec =>
        simp only [hd] at h
        refine ⟨dec, rfl, ?_⟩
        cases hp : parse_send_message_response dec <;> simp only [hp] at h <;>
          simp_all
    · rintro ⟨dec, hd, hp⟩
      simp [send_message_result, hd, hp]

/-- Witness for C3: with no content encoding (identity decode), a
rate-limit body classifies as the raised rate-limit signal. -/
theorem c3_rate_limit_only_via_stream_parse_witness :
    send_message_result (fun _ => none) (fun _ => none)
      ⟨429, none, "\x7b\"error\":\x7b\"resets_at\":1700000000\x7d\x7d"⟩ =
      SendOutcome.raisedRateLimit 1700000000 :=
  ((c3_rate_limit_only_via_stream_parse (fun _ => none) (fun _ => none)
      ⟨429, none, "\x7b\"error\":\x7b\"resets_at\":1700000000\x7d\x7d"⟩).2
    1700000000).mpr
    ⟨"\x7b\"error\":\x7b\"resets_at\":1700000000\x7d\x7d", rfl, by rfl⟩

/-- Counterexample for C3: an HTTP 429 response whose gzip-declared body
fails to decode is returned as `answer = None` with the raw bytes, even
though the raw body carries `error.resets_at`; no rate-limit outcome is
produced, contradicting the claim that 429 + `resets_at` always maps to
RateLimited independently of decoding. -/
theorem c3_counterexample :
    send_message_result (fun _ => none) (fun _ => none)
      ⟨429, some "gzip", "\x7b\"error\":\x7b\"resets_at\":1700000000\x7d\x7d"⟩ =
      SendOutcome.response
        ⟨none, 429, "\x7b\"error\":\x7b\"resets_at\":1700000000\x7d\x7d"⟩ ∧
    send_message_result (fun _ => none) (fun _ => none)
      ⟨429, some "gzip", "\x7b\"error\":\x7b\"resets_at\":1700000000\x7d\x7d"⟩ ≠
      SendOutcome.raisedRateLimit 1700000000 := by
  have h : send_message_result (fun _ => none) (fun _ => none)
      ⟨429, some "gzip", "\x7b\"error\":\x7b\"resets_at\":1700000000\x7d\x7d"⟩ =
      SendOutcome.response
        ⟨none, 429, "\x7b\"error\":\x7b\"resets_at\":1700000000\x7d\x7d"⟩ := by rfl
  exact ⟨h, by rw [h]; simp⟩

/-! ## Claim C4 -/

/-- Claim C4 (code bug).  The code computes
`sleep_sec = int(abs(time() - reset_timestamp)) + 1`, which disagrees
with the documented/spec value `max(0, resetEpoch - now) + 1` whenever
the reset epoch lies in the past: at `now = 1700000100`,
`reset = 1700000000` the code waits 101 seconds (and this grows as time
passes) where the spec says 1.  The "clamped to at least 1" half of the
claim does hold of the code. -/
theorem c4_sleep_sec_divergence :
    sleep_sec 1700000100 1700000000 = 101 ∧
    sleep_sec_spec 1700000100 1700000000 = 1 ∧
    sleep_sec 1700000100 1700000000 ≠ sleep_sec_spec 1700000100 1700000000 ∧
    ∀ now reset : Int, 1 ≤ sleep_sec now reset := by
  refine ⟨by decide, by decide, by decide, fun now reset => ?_⟩
  have h : 0 ≤ |now - reset| := abs_nonneg _
  simp only [sleep_sec]
  omega

/-! ## Claim C5 -/

/-- Claim C5 (corrected).  Both variants dispatch gzip-wrapper zlib
decompression for the label "gzip" and raw inflate for "deflate", and
pass the buffer through unchanged for an unknown or absent label.  But
Brotli decompression for "br" happens only in the claude2_api variant;
the claude_api variant has dropped its Brotli branch and returns the
buffer unchanged for "br" as well (see the counterexample). -/
theorem c5_decode_dispatch (gz infl brd : String → Option String)
    (buffer : String) :
    decode_response gz infl buffer (some "gzip") = gz buffer ∧
    decode_response gz infl buffer (some "deflate") = infl buffer ∧
    decode_response gz infl buffer (some "br") = some buffer ∧
    decode_response gz infl buffer none = some buffer ∧
    (∀ e, e ≠ "gzip" → e ≠ "deflate" →
      decode_response gz infl buffer (some e) = some buffer) ∧
    decode_response2 gz infl brd buffer (some "gzip") = gz buffer ∧
    decode_response2 gz infl brd buffer (some "deflate") = infl buffer ∧
    decode_response2 gz infl brd buffer (some "br") = brd buffer ∧
    decode_response2 gz infl brd buffer none = some buffer ∧
    (∀ e, e ≠ "gzip" → e ≠ "deflate" → e ≠ "br" →
      decode_response2 gz infl brd buffer (some e) = some buffer) := by
  refine ⟨rfl, rfl, rfl, rfl, fun e h1 h2 => ?_, rfl, rfl, rfl, rfl,
    fun e h1 h2 h3 => ?_⟩
  · simp [decode_response, h1, h2]
  · simp [decode_response2, h1, h2, h3]

/-- Witness for C5: the generic-label clauses at the label "zstd". -/
theorem c5_decode_dispatch_witness :
    decode_response (fun _ => none) (fun _ => none) "x" (some "zstd") = some "x" ∧
    decode_response2 (fun _ => none) (fun _ => none) (fun _ => none) "x"
      (some "zstd") = some "x" :=
  ⟨(c5_decode_dispatch (fun _ => none) (fun _ => none) (fun _ => none)
      "x").2.2.2.2.1 "zstd" (by decide) (by decide),
   (c5_decode_dispatch (fun _ => none) (fun _ => none) (fun _ => none)
      "x").2.2.2.2.2.2.2.2.2 "zstd" (by decide) (by decide) (by decide)⟩

/-- Counterexample for C5: under a Brotli oracle that maps "x" to "yy",
the claude_api decoder still returns "x" unchanged for the label "br"
(its Brotli branch is dropped), while the claude2_api decoder applies
the oracle — so "decode performs Brotli decompression for br" is false
for the claude_api variant. -/
theorem c5_counterexample :
    decode_response (fun _ => none) (fun _ => none) "x" (some "br") = some "x" ∧
    decode_response2 (fun _ => none) (fun _ => none) (fun _ => some "yy") "x"
      (some "br") = some "yy" ∧
    (some "x" : Option String) ≠ some "yy" :=
  ⟨rfl, rfl, by decide⟩

/-! ## Claim C7 -/

theorem check_paths_loop_ok (fs : FileSystem) (l : List String)
    (h : ∀ p ∈ l, fs.pathExists p = true ∧ fs.isFile p = true ∧
      fs.size p ≤ 10485760) : check_paths_loop fs l = .ok () := by
  induction l with
  | nil => rfl
  | cons p rest ih =>
    obtain ⟨he, hi, hs⟩ := h p (List.mem_cons_self p rest)
    simp only [check_paths_loop, he, hi, Bool.not_true, Bool.or_self,
      Bool.false_eq_true, if_false]
    rw [if_neg (by omega)]
    exact ih fun q hq => h q (List.mem_cons_of_mem p hq)

/-- Claim C7 (confirmed).  A list of exactly 5 attachment paths naming
existing regular files within the 10 MB size cap passes validation,
while a list of 6 paths is rejected with the local validation error
"Cannot attach more than 5 files!" — and in that case `send_message`
produces the rejection without consulting the network effect at all
(the outcome is the same for every network behaviour). -/
theorem c7_attachment_boundary :
    (∀ (fs : FileSystem) (ps : List String) (gz infl : String → Option String)
        (net net' : Unit → HttpResponse), ps.length = 6 →
      send_message fs (some ps) gz infl net =
        SendOutcome.validationError "Cannot attach more than 5 files!" ∧
      send_message fs (some ps) gz infl net =
        send_message fs (some ps) gz infl net') ∧
    (∀ (fs : FileSystem) (ps : List String), ps.length = 5 →
      (∀ p ∈ ps, fs.pathExists p = true ∧ fs.isFile p = true ∧
        fs.size p ≤ 10485760) →
      check_file_attachments_paths fs (some ps) = .ok ()) := by
  constructor
  · intro fs ps gz infl net net' h
    cases ps with
    | nil => simp at h
    | cons p rest =>
      have h6 : (p :: rest).length > 5 := by omega
      constructor <;>
      · simp only [send_message, check_file_attachments_paths]
        rw [if_pos h6]
  · intro fs ps h5 hall
    cases ps with
    | nil => simp at h5
    | cons p rest =>
      have h6 : ¬ (p :: rest).length > 5 := by omega
      simp only [check_file_attachments_paths, if_neg h6]
      exact check_paths_loop_ok fs (p :: rest) hall

/-- Witness for C7: a 6-path list is rejected locally; a 5-path list of
valid files passes. -/
theorem c7_attachment_boundary_witness :
    send_message ⟨fun _ => true, fun _ => true, fun _ => 0⟩
      (some ["1", "2", "3", "4", "5", "6"]) (fun _ => none) (fun _ => none)
      (fun _ => ⟨200, none, ""⟩) =
      SendOutcome.validationError "Cannot attach more than 5 files!" ∧
    check_file_attachments_paths ⟨fun _ => true, fun _ => true, fun _ => 0⟩
      (some ["a", "b", "c", "d", "e"]) = .ok () :=
  ⟨(c7_attachment_boundary.1 ⟨fun _ => true, fun _ => true, fun _ => 0⟩
      ["1", "2", "3", "4", "5", "6"] (fun _ => none) (fun _ => none)
      (fun _ => ⟨200, none, ""⟩) (fun _ => ⟨200, none, ""⟩) (by decide)).1,
   c7_attachment_boundary.2 ⟨fun _ => true, fun _ => true, fun _ => 0⟩
      ["a", "b", "c", "d", "e"] (by decide)
      (fun p _ => ⟨rfl, rfl, Nat.zero_le _⟩)⟩

/-! ## Claim C8 -/

/-- Claim C8 (confirmed).  Whenever `send_message` returns a
`SendMessageResponse` — successful parse, malformed body, or decode
failure — its `status_code` field is the HTTP status of the POST
response and its `raw_answer` field is the original undecoded body;
decoding and parsing never alter these two fields. -/
theorem c8_response_fields (gz infl : String → Option String)
    (resp : HttpResponse) (r : SendMessageResponse)
    (h : send_message_result gz infl resp = SendOutcome.response r) :
    r.status_code = resp.status_code ∧ r.raw_answer = resp.content := by
  unfold send_message_result at h
  cases hd : decode_response gz infl resp.content resp.content_encoding with
  | none =>
    simp only [hd, SendOutcome.response.injEq] at h
    subst h
    exact ⟨rfl, rfl⟩
  | some dec =>
    simp only [hd] at h
    cases hp : parse_send_message_response dec <;> simp only [hp] at h <;>
      first
        | (simp only [SendOutcome.response.injEq] at h; subst h; exact ⟨rfl, rfl⟩)
        | simp_all

/-- Witness for C8: a decode-failure outcome carries the original
status and raw body. -/
theorem c8_response_fields_witness :
    (⟨none, 429, "zzz"⟩ : SendMessageResponse).status_code =
      (⟨429, some "gzip", "zzz"⟩ : HttpResponse).status_code ∧
    (⟨none, 429, "zzz"⟩ : SendMessageResponse).raw_answer =
      (⟨429, some "gzip", "zzz"⟩ : HttpResponse).content :=
  c8_response_fields (fun _ => none) (fun _ => none)
    ⟨429, some "gzip", "zzz"⟩ ⟨none, 429, "zzz"⟩ rfl

/-! ## Claim C9 -/

theorem collect_uuids_objs (objs : List (List (String × JVal))) :
    collect_uuids (objs.map JVal.obj) =
      some (objs.filterMap (fun fs => objGet fs "uuid")) := by
  induction objs with
  | nil => rfl
  | cons fs objs' ih =>
    cases hk : objHasKey fs "uuid" with
    | false =>
      have hg := (objGet_eq_none_iff fs "uuid").mpr hk
      simp [collect_uuids, pyIn, hk, ih, List.filterMap_cons, hg]
    | true =>
      obtain ⟨v, hv⟩ := objGet_some_of_objHasKey hk
      simp [collect_uuids, pyIn, hk, pySubscript, hv, ih, List.filterMap_cons]

/-- Claim C9 (corrected).  For every HTTP-200 list-chats body parsing
to a JSON array all of whose elements are objects, `get_all_chat_ids`
returns exactly the "uuid" values of the objects that have that key, in
array order, silently omitting objects without it (so the list may be
shorter than the array); and a non-200 status yields the empty list.
Non-object array elements, however, are not silently omitted: they make
the comprehension raise a `TypeError` (see the counterexample). -/
theorem c9_get_all_chat_ids :
    (∀ objs : List (List (String × JVal)),
      get_all_chat_ids 200 (objs.map JVal.obj) =
        some (objs.filterMap (fun fs => objGet fs "uuid"))) ∧
    (∀ (status : Nat) (j : List JVal), status ≠ 200 →
      get_all_chat_ids status j = some []) := by
  constructor
  · intro objs
    exact collect_uuids_objs objs
  · intro status j h
    simp [get_all_chat_ids, h]

/-- Witness for C9: three object elements, the middle one without a
"uuid" key, produce the two uuid values in order; a 404 produces []. -/
theorem c9_get_all_chat_ids_witness :
    get_all_chat_ids 200
      [JVal.obj [("uuid", JVal.str "a")], JVal.obj [("name", JVal.str "b")],
       JVal.obj [("uuid", JVal.str "c")]] =
      some [JVal.str "a", JVal.str "c"] ∧
    get_all_chat_ids 404 [JVal.obj [("uuid", JVal.str "a")]] = some [] :=
  ⟨(c9_get_all_chat_ids.1 [[("uuid", JVal.str "a")], [("name", JVal.str "b")],
      [("uuid", JVal.str "c")]]).trans (by rfl),
   c9_get_all_chat_ids.2 404 [JVal.obj [("uuid", JVal.str "a")]] (by decide)⟩

/-- Counterexample for C9: a 200 body parsing to the JSON array `[1]`
has one element without a "uuid" key, which the claim says is silently
omitted (yielding `[]`); the comprehension instead raises a `TypeError`
(`"uuid" in 1` is not iterable), so no list is returned at all. -/
theorem c9_counterexample :
    get_all_chat_ids 200 [JVal.num "1"] = none ∧
    (none : Option (List JVal)) ≠ some ([] : List JVal) :=
  ⟨rfl, by simp⟩

/-! ## Claim C10 -/

/-- Claim C10 (confirmed).  On an empty chat list `delete_all_chats`
returns `true` while leaving the remote state untouched — the
conjunction over an empty sequence is vacuously true and no deletion is
performed — so a `true` result does not imply any chat was actually
deleted. -/
theorem c10_delete_all_chats_empty :
    ∀ (σ : Type) (del : String → σ → Bool × σ) (s : σ),
      delete_all_chats del [] s = (true, s) :=
  fun _ _ _ => rfl

end ClaudeApi






